import Mathlib

/-!
A shallow embedding of the plant-detail resolution pipeline of
`src/supabase/plant-details/index.ts` (a Deno/Supabase edge function), together
with proofs about it.

External effects are modelled by environments: every awaited network call is a
field of an environment record whose value is `Except Unit _` — `.error ()`
means the awaited promise rejected (a thrown exception), `.ok v` means it
resolved with value `v`.  A `fetch` call and the `res.json()` decoding that
immediately follows it are merged into one oracle value, which preserves the
observable behaviour (a throw at either point reaches the same `catch`, and a
non-2xx response short-circuits before `json()` is consulted).

JavaScript dynamic values are modelled by `JValue`; JavaScript truthiness is
modelled explicitly wherever the source branches on it.  `JSON.parse` is a
parameter (`jsonParse : String → Option JValue`, `none` = throw): the
properties proved below hold for every parse function, which covers the real
one.
-/

set_option autoImplicit false

namespace PlantDetails

/-- A JavaScript/JSON value, as produced by `JSON.parse` and handled by the
normalization loop of `callGeminiInLanguage`. -/
inductive JValue where
  | null
  | bool (b : Bool)
  | num (n : Int)
  | str (s : String)
  | arr (xs : List JValue)
  | obj (fields : List (String × JValue))

/-- JavaScript truthiness of a `JValue` (`undefined` is modelled as the absent
`Option` case at use sites). -/
def JValue.jsTruthy : JValue → Bool
  | .null => false
  | .bool b => b
  | .num n => n != 0
  | .str s => s != ""
  | .arr _ => true
  | .obj _ => true

/-- `Array.isArray`. -/
def JValue.isArr : JValue → Bool
  | .arr _ => true
  | _ => false

/-- A detail sheet: the plain JS object built by the normalization loop,
as a key/value association list in key order. -/
abbrev DetailSheet := List (String × JValue)

/-- Property access `o[key]` on a JS object (`none` = `undefined`). -/
def jsLookup (fields : List (String × JValue)) (key : String) : Option JValue :=
  match fields.find? (fun p => p.1 = key) with
  | some p => some p.2
  | none => none

/-- The fixed field list `expectedFields` of `callGeminiInLanguage`
(src/supabase/plant-details/index.ts:399-403). -/
def expectedFields : List String :=
  ["common_name", "scientific_name", "easy", "exposure", "exposure_tag", "water",
   "family", "description", "watering", "care", "growth", "flowering",
   "resistance", "temperature", "multiplication", "diseases", "advice",
   "interest", "toxicity", "frequency", "origin"]

/-- `String.prototype.trim` at the character level: strip leading and
trailing whitespace. -/
def trimChars (cs : List Char) : List Char :=
  ((cs.dropWhile Char.isWhitespace).reverse.dropWhile Char.isWhitespace).reverse

/-- The test `value.trim().startsWith('[') && value.trim().endsWith(']')`
(index.ts:410). -/
def looksLikeArrayLit (s : String) : Bool :=
  let t := trimChars s.data
  (t.head? == some '[') && (t.getLast? == some ']')

/-- One step of the field-normalization loop (index.ts:407-420): re-parse a
string that looks like an array literal (keeping the raw string when the parse
throws), force a truthy non-array `advice` value into a one-element array, and
default an absent/null value to an explicit null. -/
def normalizeField (jsonParse : String → Option JValue)
    (parsedDetails : List (String × JValue)) (key : String) : JValue :=
  let value0 := jsLookup parsedDetails key
  let value1 : Option JValue :=
    match value0 with
    | some (.str s) =>
      if looksLikeArrayLit s then
        match jsonParse s with
        | some w => some w
        | none => some (.str s)
      else some (.str s)
    | v => v
  let value2 : Option JValue :=
    if key = "advice" then
      match value1 with
      | some v => if v.jsTruthy && !v.isArr then some (.arr [v]) else some v
      | none => none
    else value1
  match value2 with
  | none => JValue.null
  | some JValue.null => JValue.null
  | some v => v

/-- The `safeDetails` object built by the normalization loop: exactly the
expected fields, in order. -/
def normalizeDetails (jsonParse : String → Option JValue)
    (parsedDetails : List (String × JValue)) : DetailSheet :=
  expectedFields.map (fun key => (key, normalizeField jsonParse parsedDetails key))

/-- Index of the first occurrence of `pat` as a contiguous sublist of `hay`. -/
def findSubIdx (hay pat : List Char) : Option Nat :=
  match hay with
  | [] => if pat.isEmpty then some 0 else none
  | _ :: t => if pat.isPrefixOf hay then some 0 else (findSubIdx t pat).map (· + 1)

/-- The greedy regex match `text.match(/\{[\s\S]*\}/)` (index.ts:387): the
substring from the first `\x7b` to the last `\x7d`, when the latter comes after
the former. -/
def braceMatch (s : String) : Option String :=
  let cs := s.data
  match cs.findIdx? (fun c => c = '{') with
  | none => none
  | some i =>
    match cs.reverse.findIdx? (fun c => c = '}') with
    | none => none
    | some r =>
      let j := cs.length - 1 - r
      if i < j then some (String.mk ((cs.drop i).take (j - i + 1))) else none

/-- Outcome of the single Gemini HTTP round trip: `ok` is `response.ok`, and
`text` is `candidates?.[0]?.content?.parts?.[0]?.text` of the decoded body
(`none` = absent). -/
structure GeminiHttp where
  ok : Bool
  text : Option String
deriving DecidableEq, Repr

/-- Environment of one `callGeminiInLanguage` call: the fetch either throws
(`.error ()`, covering network errors and a throwing `res.json()`) or resolves. -/
structure GeminiEnv where
  response : Except Unit GeminiHttp

/-- `callGeminiInLanguage` (index.ts:287-423), for a fixed language: a non-2xx
response or an absent/empty text yields `none` (null); otherwise the first
brace-delimited substring is parsed (falling back to an empty object) and
normalized.  There is no try/catch in the source function, so a thrown fetch
propagates as `.error`. -/
def callGeminiInLanguage (jsonParse : String → Option JValue) (env : GeminiEnv) :
    Except Unit (Option DetailSheet) :=
  match env.response with
  | .error e => .error e
  | .ok h =>
    if h.ok = false then .ok none
    else
      match h.text with
      | none => .ok none
      | some geminiText =>
        if geminiText = "" then .ok none
        else
          let parsedDetails : List (String × JValue) :=
            match braceMatch geminiText with
            | none => []
            | some jsonStr =>
              match jsonParse jsonStr with
              | some (.obj fields) => fields
              | _ => []
          .ok (some (normalizeDetails jsonParse parsedDetails))

/-! ### Trefle image provider (`getTreflePlantImages`, index.ts:91-176) -/

/-- The per-category image buckets of a Trefle detail payload
(`images.leaf` / `images.habit` / `images.flower`).  Each entry is one image
object's `image_url` field (`none` = absent). -/
structure TrefleImages where
  leaf : List (Option String)
  habit : List (Option String)
  flower : List (Option String)

/-- One entry of the Trefle search result array (only the fields the source
reads). -/
structure SearchEntry where
  id : Option Nat
  main_species_id : Option Nat

/-- JS truthiness of an optional numeric id (`0`, `null`, `undefined` are
falsy). -/
def jsTruthyNat : Option Nat → Bool
  | some n => n != 0
  | none => false

/-- The JS expression `a || b` on optional numeric ids
(`firstResult?.id || firstResult?.main_species_id`, index.ts:116). -/
def jsOrNat (a b : Option Nat) : Option Nat :=
  if jsTruthyNat a then a else b

/-- `main_species.main_species` nesting of a Trefle detail payload. -/
structure TrefleMainSpeciesInner where
  images : Option TrefleImages

/-- `main_species` node of a Trefle detail payload. -/
structure TrefleMainSpecies where
  images : Option TrefleImages
  main_species : Option TrefleMainSpeciesInner

/-- `data` node of a Trefle detail payload. -/
structure TrefleDataNode where
  images : Option TrefleImages
  main_species : Option TrefleMainSpecies

/-- The `||` chain selecting the images node (index.ts:133-136):
`dataNode?.images || dataNode?.main_species?.images ||
dataNode?.main_species?.main_species?.images` (objects are truthy, absent is
falsy). -/
def trefleImagesOf (dataNode : Option TrefleDataNode) : Option TrefleImages :=
  match dataNode with
  | none => none
  | some d =>
    (d.images).orElse (fun _ =>
      (d.main_species.bind (fun m => m.images)).orElse (fun _ =>
        d.main_species.bind (fun m => m.main_species.bind (fun i => i.images))))

/-- The inner `for (const image of categoryImages)` loop (index.ts:152-163):
push a truthy, not-yet-seen URL, then break once `count >= perCategoryLimit`
or `collected.length >= maxTotal`.  Returns the updated `(seen, collected)`. -/
def collectCategory (perCategoryLimit maxTotal : Nat) :
    List (Option String) → List String → List String → Nat →
    (List String × List String)
  | [], seen, collected, _ => (seen, collected)
  | url? :: rest, seen, collected, count =>
    let step :=
      match url? with
      | some url =>
        if url != "" && !(seen.contains url) then
          (url :: seen, collected ++ [url], count + 1)
        else (seen, collected, count)
      | none => (seen, collected, count)
    if step.2.2 ≥ perCategoryLimit || step.2.1.length ≥ maxTotal then
      (step.1, step.2.1)
    else
      collectCategory perCategoryLimit maxTotal rest step.1 step.2.1 step.2.2

/-- The outer `for (const category of categories)` loop (index.ts:148-168):
walk categories in order, breaking once the global cap is reached. -/
def trefleCategoryWalk (perCategoryLimit maxTotal : Nat) :
    List (List (Option String)) → List String → List String → List String
  | [], _, collected => collected
  | cat :: rest, seen, collected =>
    let sc := collectCategory perCategoryLimit maxTotal cat seen collected 0
    if sc.2.length ≥ maxTotal then sc.2
    else trefleCategoryWalk perCategoryLimit maxTotal rest sc.1 sc.2

/-- The category walk over the fixed category order
`['leaf', 'habit', 'flower']` with `maxTotal = perCategoryLimit *
categories.length` (index.ts:143-168). -/
def trefleCollect (images : TrefleImages) (perCategoryLimit : Nat) : List String :=
  trefleCategoryWalk perCategoryLimit (perCategoryLimit * 3)
    [images.leaf, images.habit, images.flower] [] []

/-- Environment of one `getTreflePlantImages` call: the env token and the two
fetch+decode round trips (search, detail), each `(res.ok, decoded data)` or a
thrown error. -/
structure TrefleEnv where
  token : Option String
  search : Except Unit (Bool × Option (List SearchEntry))
  detail : Except Unit (Bool × Option TrefleDataNode)

/-- The `try` block of `getTreflePlantImages` (index.ts:98-171): every early
exit (non-2xx, non-array search data, no plant id, no images node) returns
`[]`; a thrown await propagates. -/
def getTreflePlantImagesTry (env : TrefleEnv) (perCategoryLimit : Nat) :
    Except Unit (List String) :=
  match env.search with
  | .error e => .error e
  | .ok (searchOk, searchResults) =>
    if searchOk = false then .ok []
    else
      match searchResults with
      | none => .ok []
      | some [] => .ok []
      | some (firstResult :: _) =>
        if jsTruthyNat (jsOrNat firstResult.id firstResult.main_species_id) = false then
          .ok []
        else
          match env.detail with
          | .error e => .error e
          | .ok (detailOk, dataNode) =>
            if detailOk = false then .ok []
            else
              match trefleImagesOf dataNode with
              | none => .ok []
              | some images => .ok (trefleCollect images perCategoryLimit)

/-- `getTreflePlantImages` (index.ts:91-176): missing/empty token short-circuits
to `[]` before the `try`; the `catch` turns any thrown step into `[]`. -/
def getTreflePlantImages (env : TrefleEnv) (perCategoryLimit : Nat) : List String :=
  match env.token with
  | none => []
  | some token =>
    if token = "" then []
    else
      match getTreflePlantImagesTry env perCategoryLimit with
      | .error _ => []
      | .ok collected => collected

/-! ### Wikipedia image provider (`getWikipediaPlantImages`, index.ts:11-88) -/

/-- One entry of the page image list (`pages[0]?.images`); only `title` is
read. -/
structure WikiImage where
  title : String

/-- Environment of one `getWikipediaPlantImages` call: every awaited round
trip is an oracle value; `fileUrl` is keyed by the looked-up filename and
`entityImage` by the Wikidata entity id. -/
structure WikiEnv where
  main : Except Unit (Option String)
  pageImages : Except Unit (List WikiImage)
  fileUrl : String → Except Unit (Option String)
  qidSearch : Except Unit (Option String)
  entityImage : String → Except Unit (Option String)

/-- The filter `/\.(jpg|jpeg|png)$/i.test(img.title)` (index.ts:42). -/
def isPhotoFormat (title : String) : Bool :=
  let t := title.toLower
  t.endsWith ".jpg" || t.endsWith ".jpeg" || t.endsWith ".png"

/-- JS `String.prototype.replace` with a string pattern: replace only the
first occurrence (used for `img.title.replace("File:", "")`,
index.ts:45). -/
def replaceFirst (s pat : String) : String :=
  match findSubIdx s.data pat.data with
  | none => s
  | some i => String.mk (s.data.take i ++ s.data.drop (i + pat.data.length))

/-- `Set.prototype.add` on an insertion-ordered set of URLs. -/
def setAdd (urls : List String) (u : String) : List String :=
  if urls.contains u then urls else urls ++ [u]

/-- The `for (let img of images)` loop (index.ts:41-56): for each
photographic-format title, resolve the direct file URL; add a truthy URL to
the set and break once `urls.size >= limit`. -/
def wikiImageLoop (env : WikiEnv) (limit : Nat) :
    List WikiImage → List String → Except Unit (List String)
  | [], urls => .ok urls
  | img :: rest, urls =>
    if isPhotoFormat img.title then
      match env.fileUrl (replaceFirst img.title "File:") with
      | .error e => .error e
      | .ok url? =>
        match url? with
        | some url =>
          if url = "" then wikiImageLoop env limit rest urls
          else
            let urls2 := setAdd urls url
            if urls2.length ≥ limit then .ok urls2
            else wikiImageLoop env limit rest urls2
        | none => wikiImageLoop env limit rest urls
    else wikiImageLoop env limit rest urls

/-- The Wikimedia Commons file-path URL built for a Wikidata P18 image name
(index.ts:75); percent-encoding is left at the string boundary. -/
def commonsFilePathUrl (imageName : String) : String :=
  "https://commons.wikimedia.org/wiki/Special:FilePath/" ++ imageName

/-- Step 1 (index.ts:17-28): the URL set after adding the main thumbnail when
present and truthy. -/
def wikiMainUrls (mainThumb : Option String) : List String :=
  match mainThumb with
  | some src => if src = "" then [] else setAdd [] src
  | none => []

/-- Step 3 (index.ts:58-78): if still short of `limit`, look the species up on
Wikidata and add its P18 image when present and truthy. -/
def wikiStep3 (env : WikiEnv) (limit : Nat) (urls1 : List String) :
    Except Unit (List String) :=
  if urls1.length < limit then
    match env.qidSearch with
    | .error e => .error e
    | .ok none => .ok urls1
    | .ok (some qid) =>
      match env.entityImage qid with
      | .error e => .error e
      | .ok (some imageName) =>
        if imageName = "" then .ok urls1
        else .ok (setAdd urls1 (commonsFilePathUrl imageName))
      | .ok none => .ok urls1
  else .ok urls1

/-- The `try` block of `getWikipediaPlantImages` (index.ts:14-82): main
thumbnail, then the page-image loop, then — if still short of `limit` — the
Wikidata P18 fallback; finally `Array.from(urls).slice(0, limit)`. -/
def getWikipediaPlantImagesTry (env : WikiEnv) (limit : Nat) :
    Except Unit (List String) :=
  match env.main with
  | .error e => .error e
  | .ok mainThumb =>
    match env.pageImages with
    | .error e => .error e
    | .ok images =>
      match wikiImageLoop env limit images (wikiMainUrls mainThumb) with
      | .error e => .error e
      | .ok urls1 =>
        match wikiStep3 env limit urls1 with
        | .error e => .error e
        | .ok urls2 => .ok (urls2.take limit)

/-- `getWikipediaPlantImages` (index.ts:11-88): the `catch` turns any thrown
step into `[]`. -/
def getWikipediaPlantImages (env : WikiEnv) (limit : Nat) : List String :=
  match getWikipediaPlantImagesTry env limit with
  | .error _ => []
  | .ok urls => urls

/-! ### Resolution orchestrator (the `serve` handler, index.ts:178-537) -/

/-- The `imagesSource` tag (`'trefle' | 'wikipedia' | 'none'`,
index.ts:434); the literal `'none'` is spelled `noSource` here. -/
inductive ImagesSource where
  | trefle
  | wikipedia
  | noSource
deriving DecidableEq, Repr

/-- The external operations the handler can fan out to on a cache miss. -/
inductive FetchOp where
  | genFr
  | genEn
  | fetchTrefleImages
  | fetchWikipediaImages
deriving DecidableEq, Repr

/-- One row of the `plant_details` table (`none` = NULL column). -/
structure CachedDetails where
  result_fr : Option DetailSheet
  result_en : Option DetailSheet
  images : Option (List String)

/-- The `insertData` payload (index.ts:444-461): `scientific_name` always,
and a locale/images key only when that value was obtained this round
(`none` = key absent from the payload). -/
structure InsertData where
  scientific_name : String
  result_fr : Option DetailSheet
  result_en : Option DetailSheet
  images : Option (List String)

/-- The persistence call the handler issues, if any. -/
inductive PersistAction where
  | noPersist
  | insert (d : InsertData)
  | update (d : InsertData)

/-- The observable outcome of one request: HTTP status, the detail sheet
spread into the response body (`none` when the body carries no sheet), the
`images` array of the body, the persistence call issued, and the external
fetch operations executed on the miss path. -/
structure HandlerResult where
  status : Nat
  details : Option DetailSheet
  images : List String
  persist : PersistAction
  ops : List FetchOp

/-- Environment of one request: headers and body, the environment
configuration, the cache row for this species, the `JSON.parse` oracle, the
per-call provider environments, whether the pre-upsert existence check found a
row, and whether the upsert returned an error. -/
structure ServeEnv where
  xLanguage : Option String
  acceptLanguage : Option String
  scientificName : Except Unit (Option String)
  geminiKey : Option String
  cached : Option CachedDetails
  jsonParse : String → Option JValue
  frEnv : GeminiEnv
  enEnv : GeminiEnv
  trefleEnv : TrefleEnv
  wikiEnv : WikiEnv
  existingRecord : Bool
  persistError : Bool

/-- `s.split(sep)[0]`: the prefix of `s` before the first occurrence of the
one-character separator (the whole string when the separator is absent). -/
def firstSplitToken (sep : Char) (s : String) : String :=
  String.mk (s.data.takeWhile (fun c => !(c == sep)))

/-- Locale resolution (index.ts:240): `req.headers.get('x-language') ||
req.headers.get('accept-language')?.split(',')[0]?.split('-')[0] || 'fr'`. -/
def resolveLanguage (xLanguage acceptLanguage : Option String) : String :=
  let fromAccept :=
    match acceptLanguage with
    | none => ""
    | some a => firstSplitToken '-' (firstSplitToken ',' a)
  let l :=
    match xLanguage with
    | some x => if x = "" then fromAccept else x
    | none => fromAccept
  if l = "" then "fr" else l

/-- The resolved request language of one request (index.ts:240). -/
def requestLanguage (env : ServeEnv) : String :=
  resolveLanguage env.xLanguage env.acceptLanguage

/-- `isEnglish` (index.ts:241). -/
def isEnglishReq (env : ServeEnv) : Bool :=
  requestLanguage env = "en"

/-- The cache-check read (index.ts:246-257): the requested locale's column of
the existing row (`existingDetails && existingDetails[resultColumn]`). -/
def cachedForLocale (env : ServeEnv) : Option DetailSheet :=
  env.cached.bind (fun r => if isEnglishReq env then r.result_en else r.result_fr)

/-- The image branch of the miss path (index.ts:427-441): Trefle first, and
only when it yields nothing, Wikipedia; tagged with the source that won. -/
def aggregatePlantImages (tenv : TrefleEnv) (wenv : WikiEnv) :
    List String × ImagesSource :=
  let trefleImages := getTreflePlantImages tenv 2
  if trefleImages.length > 0 then (trefleImages, ImagesSource.trefle)
  else
    let wikiImages := getWikipediaPlantImages wenv 5
    (wikiImages,
      if wikiImages.length > 0 then ImagesSource.wikipedia else ImagesSource.noSource)

/-- The `try` block of the `serve` handler (index.ts:224-527), for a POST
request: body parse, locale resolution, cache check, Gemini key check,
fan-out, both-locales guard, upsert decision, response.  A thrown await
(body parse, or a Gemini branch of the `Promise.all`) propagates as
`.error`. -/
def serveHandlerTry (env : ServeEnv) : Except Unit HandlerResult :=
  match env.scientificName with
  | .error e => .error e
  | .ok none => .ok (HandlerResult.mk 400 none [] PersistAction.noPersist [])
  | .ok (some scientificName) =>
    if scientificName = "" then
      .ok (HandlerResult.mk 400 none [] PersistAction.noPersist [])
    else
      match cachedForLocale env with
      | some sheet =>
        .ok (HandlerResult.mk 200 (some sheet)
          ((env.cached.bind (fun r => r.images)).getD [])
          PersistAction.noPersist [])
      | none =>
        match env.geminiKey with
        | none => .ok (HandlerResult.mk 500 none [] PersistAction.noPersist [])
        | some geminiApiKey =>
          if geminiApiKey = "" then
            .ok (HandlerResult.mk 500 none [] PersistAction.noPersist [])
          else
            match callGeminiInLanguage env.jsonParse env.frEnv,
                  callGeminiInLanguage env.jsonParse env.enEnv with
            | .error e, _ => .error e
            | .ok _, .error e => .error e
            | .ok frenchDetails, .ok englishDetails =>
              let agg := aggregatePlantImages env.trefleEnv env.wikiEnv
              let plantImages := agg.1
              let ops :=
                if (getTreflePlantImages env.trefleEnv 2).length > 0 then
                  [FetchOp.genFr, FetchOp.genEn, FetchOp.fetchTrefleImages]
                else
                  [FetchOp.genFr, FetchOp.genEn, FetchOp.fetchTrefleImages,
                   FetchOp.fetchWikipediaImages]
              match frenchDetails, englishDetails with
              | none, none =>
                .ok (HandlerResult.mk 503 none [] PersistAction.noPersist ops)
              | _, _ =>
                let insertData : InsertData :=
                  { scientific_name := scientificName
                    result_fr := frenchDetails
                    result_en := englishDetails
                    images :=
                      if plantImages.length > 0 then some plantImages else none }
                let persist :=
                  if env.existingRecord then PersistAction.update insertData
                  else PersistAction.insert insertData
                let requestedDetails :=
                  if isEnglishReq env then englishDetails else frenchDetails
                .ok (HandlerResult.mk 200 requestedDetails plantImages persist ops)

/-- The `serve` handler with its outermost `catch` (index.ts:529-536): any
uncaught exception becomes a 500 with no persistence. -/
def serveHandler (env : ServeEnv) : HandlerResult :=
  match serveHandlerTry env with
  | .error _ => HandlerResult.mk 500 none [] PersistAction.noPersist []
  | .ok r => r

/-- Modelled from the spec: the external Cache Store collaborator
(spec §6, `insert` / `update` keyed on the species identifier; §3: the store
has no business logic).  `update` sets exactly the columns present in the
payload on the existing row; an error leaves the store unchanged. -/
def applyUpdate (r : CachedDetails) (d : InsertData) : CachedDetails :=
  { result_fr := match d.result_fr with | some s => some s | none => r.result_fr
    result_en := match d.result_en with | some s => some s | none => r.result_en
    images := match d.images with | some i => some i | none => r.images }

/-- Modelled from the spec: applying the handler's persistence call to the
stored row for this species (spec §6); `failed = true` models the store
returning an error, which leaves the row unchanged. -/
def applyPersist (store : Option CachedDetails) (a : PersistAction)
    (failed : Bool) : Option CachedDetails :=
  if failed then store
  else
    match a with
    | PersistAction.noPersist => store
    | PersistAction.insert d => some ⟨d.result_fr, d.result_en, d.images⟩
    | PersistAction.update d =>
      match store with
      | some r => some (applyUpdate r d)
      | none => none

/-! ### Locale views (for the locale-resolution claims) -/

/-- The two supported locales. -/
inductive Locale where
  | fr
  | en
deriving DecidableEq, Repr

/-- The locale the handler effectively serves: the code only ever tests
`language === 'en'` (index.ts:241), so every resolved value other than `"en"`
behaves as `fr`. -/
def effectiveLocale (xLanguage acceptLanguage : Option String) : Locale :=
  if resolveLanguage xLanguage acceptLanguage = "en" then Locale.en else Locale.fr

/-- The first `;`/`,`-delimited token of a header value, as the claim reads
the language-preference header. -/
def claimFirstToken (a : String) : String :=
  String.mk (a.data.takeWhile (fun c => !(c == ';' || c == ',')))

/-- Modelled from the spec (as amended): the header language is the explicit
override header when non-empty, otherwise the first `,`-delimited entry of the
language-preference header truncated at its first `-`, otherwise empty. -/
def amendedHeaderLanguage (xLanguage acceptLanguage : Option String) : String :=
  let fromAccept :=
    match acceptLanguage with
    | none => ""
    | some a => firstSplitToken '-' (firstSplitToken ',' a)
  match xLanguage with
  | some x => if x = "" then fromAccept else x
  | none => fromAccept

/-- Modelled from the spec (as amended): only the exact header language `"en"`
selects English; any other resolved value (including an empty or weighted
entry) collapses to the default `fr`. -/
def effectiveLocaleAmendedSpec (xLanguage acceptLanguage : Option String) : Locale :=
  if amendedHeaderLanguage xLanguage acceptLanguage = "en" then Locale.en
  else Locale.fr

/-! ### Concrete example inputs used by witnesses and counterexamples -/

/-- A `JSON.parse` oracle that always throws. -/
def jsonParseNone : String → Option JValue := fun _ => none

/-- The sheet produced by normalizing an empty object: every expected field
explicitly null. -/
def allNullSheet : DetailSheet := normalizeDetails jsonParseNone []

/-- A Gemini round trip that returns 200 with the plain text `"hello"` (no
JSON object in it). -/
def geminiHelloEnv : GeminiEnv := ⟨Except.ok ⟨true, some "hello"⟩⟩

/-- A Gemini round trip that returns a non-2xx response. -/
def geminiDownEnv : GeminiEnv := ⟨Except.ok ⟨false, none⟩⟩

/-- A Gemini fetch that throws. -/
def geminiThrowEnv : GeminiEnv := ⟨Except.error ()⟩

/-- A Trefle environment with no API token configured. -/
def trefleOffEnv : TrefleEnv := ⟨none, Except.ok (true, none), Except.ok (true, none)⟩

/-- A Trefle environment whose search fetch throws. -/
def trefleThrowEnv : TrefleEnv := ⟨some "tok", Except.error (), Except.ok (true, none)⟩

/-- A Trefle environment whose search responds non-2xx. -/
def trefleHttpErrEnv : TrefleEnv := ⟨some "tok", Except.ok (false, none), Except.ok (true, none)⟩

/-- A Trefle environment that finds a plant with duplicate image URLs across
categories. -/
def trefleFullEnv : TrefleEnv :=
  ⟨some "tok", Except.ok (true, some [⟨some 7, none⟩]),
   Except.ok (true, some ⟨some ⟨[some "a", some "b", some "c"], [some "a", some "d"],
     [some "e", some "f", some "g"]⟩, none⟩)⟩

/-- A Wikipedia environment where every step finds nothing. -/
def wikiEmptyEnv : WikiEnv :=
  ⟨Except.ok none, Except.ok [], fun _ => Except.ok none, Except.ok none,
   fun _ => Except.ok none⟩

/-- A Wikipedia environment whose first fetch throws. -/
def wikiThrowEnv : WikiEnv :=
  ⟨Except.error (), Except.ok [], fun _ => Except.ok none, Except.ok none,
   fun _ => Except.ok none⟩

/-- A Wikipedia environment with a thumbnail, a page image list with
duplicates and non-photo entries, and a Wikidata fallback image. -/
def wikiFullEnv : WikiEnv :=
  ⟨Except.ok (some "T"),
   Except.ok [⟨"File:x.jpg"⟩, ⟨"File:y.svg"⟩, ⟨"File:x.jpg"⟩, ⟨"File:z.PNG"⟩],
   fun f => Except.ok (some ("u/" ++ f)), Except.ok (some "Q1"),
   fun _ => Except.ok (some "P18img")⟩

/-- A previously cached French sheet. -/
def oldFrSheet : DetailSheet := [("common_name", JValue.str "rose")]

/-- A request for locale `en` for a species whose row holds only a cached
`fr` sheet and non-empty images; both Gemini calls return prose without JSON,
Trefle is unconfigured and Wikipedia finds nothing. -/
def exampleMissEnv : ServeEnv :=
  { xLanguage := some "en"
    acceptLanguage := none
    scientificName := Except.ok (some "Rosa")
    geminiKey := some "k"
    cached := some ⟨some oldFrSheet, none, some ["img1"]⟩
    jsonParse := jsonParseNone
    frEnv := geminiHelloEnv
    enEnv := geminiHelloEnv
    trefleEnv := trefleOffEnv
    wikiEnv := wikiEmptyEnv
    existingRecord := true
    persistError := false }

/-- Like `exampleMissEnv`, but both Gemini calls answer with a non-2xx
response, so both locale generations fail. -/
def exampleBothFailEnv : ServeEnv :=
  { exampleMissEnv with frEnv := geminiDownEnv, enEnv := geminiDownEnv }

/-- Like `exampleMissEnv`, but with no Gemini API key configured. -/
def exampleNoKeyEnv : ServeEnv :=
  { exampleMissEnv with geminiKey := none }

/-- Like `exampleMissEnv`, but only the French generation fails (non-2xx). -/
def exampleFrFailEnv : ServeEnv :=
  { exampleMissEnv with frEnv := geminiDownEnv }

/-! ### Lemmas: image aggregation (dedup and caps) -/

theorem setAdd_nodup {l : List String} {u : String} (h : l.Nodup) :
    (setAdd l u).Nodup := by
  unfold setAdd
  split
  · exact h
  · next hc =>
    have hu : u ∉ l := by simpa using hc
    simp [List.nodup_append, h, hu]

theorem wikiImageLoop_nodup (env : WikiEnv) (limit : Nat) :
    ∀ (imgs : List WikiImage) (urls : List String), urls.Nodup →
    ∀ r, wikiImageLoop env limit imgs urls = Except.ok r → r.Nodup := by
  intro imgs
  induction imgs with
  | nil =>
    intro urls h r hr
    simp only [wikiImageLoop] at hr
    injection hr with h2
    exact h2 ▸ h
  | cons img rest ih =>
    intro urls h r hr
    simp only [wikiImageLoop] at hr
    split at hr
    · split at hr
      · cases hr
      · split at hr
        · split at hr
          · exact ih urls h r hr
          · split at hr
            · injection hr with h2
              exact h2 ▸ setAdd_nodup h
            · exact ih _ (setAdd_nodup h) r hr
        · exact ih urls h r hr
    · exact ih urls h r hr

theorem wikiMainUrls_nodup (mainThumb : Option String) :
    (wikiMainUrls mainThumb).Nodup := by
  cases mainThumb with
  | none => simp [wikiMainUrls]
  | some src =>
    by_cases h : src = "" <;> simp [wikiMainUrls, setAdd, h]

theorem wikiStep3_nodup (env : WikiEnv) (limit : Nat) (urls1 urls2 : List String)
    (h1 : urls1.Nodup) (heq : wikiStep3 env limit urls1 = Except.ok urls2) :
    urls2.Nodup := by
  unfold wikiStep3 at heq
  split at heq
  · split at heq
    · cases heq
    · injection heq with h3
      exact h3 ▸ h1
    · split at heq
      · cases heq
      · split at heq
        · injection heq with h3
          exact h3 ▸ h1
        · injection heq with h3
          exact h3 ▸ setAdd_nodup h1
      · injection heq with h3
        exact h3 ▸ h1
  · injection heq with h3
    exact h3 ▸ h1

theorem getWikipediaPlantImagesTry_spec (env : WikiEnv) (limit : Nat)
    (r : List String) (hr : getWikipediaPlantImagesTry env limit = Except.ok r) :
    r.Nodup ∧ r.length ≤ limit := by
  unfold getWikipediaPlantImagesTry at hr
  cases hm : env.main with
  | error e => simp [hm] at hr
  | ok mainThumb =>
    simp only [hm] at hr
    cases hp : env.pageImages with
    | error e => simp [hp] at hr
    | ok images =>
      simp only [hp] at hr
      cases hw : wikiImageLoop env limit images (wikiMainUrls mainThumb) with
      | error e => simp [hw] at hr
      | ok urls1 =>
        simp only [hw] at hr
        have h1 : urls1.Nodup :=
          wikiImageLoop_nodup env limit images _ (wikiMainUrls_nodup mainThumb) urls1 hw
        cases hs : wikiStep3 env limit urls1 with
        | error e => simp [hs] at hr
        | ok urls2 =>
          simp only [hs] at hr
          have h2 : urls2.Nodup := wikiStep3_nodup env limit urls1 urls2 h1 hs
          injection hr with h4
          refine h4 ▸ ⟨h2.sublist (List.take_sublist limit urls2), ?_⟩
          exact urls2.length_take_le limit

theorem getWikipediaPlantImages_nodup (env : WikiEnv) (limit : Nat) :
    (getWikipediaPlantImages env limit).Nodup := by
  unfold getWikipediaPlantImages
  split
  · simp
  · next r hr => exact (getWikipediaPlantImagesTry_spec env limit r hr).1

theorem getWikipediaPlantImages_length (env : WikiEnv) (limit : Nat) :
    (getWikipediaPlantImages env limit).length ≤ limit := by
  unfold getWikipediaPlantImages
  split
  · simp
  · next r hr => exact (getWikipediaPlantImagesTry_spec env limit r hr).2

theorem collectCategory_inv (perCategoryLimit maxTotal : Nat) :
    ∀ (cat : List (Option String)) (seen collected : List String) (count : Nat),
      collected.Nodup → (∀ u ∈ collected, u ∈ seen) →
      (collectCategory perCategoryLimit maxTotal cat seen collected count).2.Nodup ∧
      (∀ u ∈ (collectCategory perCategoryLimit maxTotal cat seen collected count).2,
        u ∈ (collectCategory perCategoryLimit maxTotal cat seen collected count).1) := by
  intro cat
  induction cat with
  | nil =>
    intro seen collected count h1 h2
    simpa [collectCategory] using ⟨h1, h2⟩
  | cons url? rest ih =>
    intro seen collected count h1 h2
    rcases url? with _ | url
    · simp only [collectCategory]
      split
      · exact ⟨h1, h2⟩
      · exact ih seen collected count h1 h2
    · simp only [collectCategory]
      split
      · next hcond =>
        have h1' : (collected ++ [url]).Nodup := by
          have hus : url ∉ seen := by
            have := (Bool.and_eq_true _ _).mp hcond
            simpa using this.2
          have huc : url ∉ collected := fun hm => hus (h2 url hm)
          simp [List.nodup_append, h1, huc]
        have h2' : ∀ u ∈ collected ++ [url], u ∈ url :: seen := by
          intro u hu
          rcases List.mem_append.mp hu with hu | hu
          · exact List.mem_cons_of_mem _ (h2 u hu)
          · simp at hu
            simp [hu]
        split
        · exact ⟨h1', h2'⟩
        · exact ih _ _ _ h1' h2'
      · split
        · exact ⟨h1, h2⟩
        · exact ih seen collected count h1 h2

theorem collectCategory_length (perCategoryLimit maxTotal : Nat) :
    ∀ (cat : List (Option String)) (seen collected : List String) (count : Nat),
      count < perCategoryLimit →
      (collectCategory perCategoryLimit maxTotal cat seen collected count).2.length ≤
        collected.length + (perCategoryLimit - count) := by
  intro cat
  induction cat with
  | nil =>
    intro seen collected count h
    simp [collectCategory]
  | cons url? rest ih =>
    intro seen collected count h
    rcases url? with _ | url
    · simp only [collectCategory]
      dsimp only
      split
      · try dsimp only
        omega
      · have := ih seen collected count h
        try dsimp only
        omega
    · simp only [collectCategory]
      dsimp only
      split
      · dsimp only
        split
        · simp only [List.length_append, List.length_cons, List.length_nil]
          omega
        · next hbreak =>
          have hlt : count + 1 < perCategoryLimit := by
            simp only [Bool.or_eq_true, decide_eq_true_eq, not_or] at hbreak
            omega
          have := ih (url :: seen) (collected ++ [url]) (count + 1) hlt
          simp only [List.length_append, List.length_cons, List.length_nil] at this
          omega
      · split
        · try dsimp only
          omega
        · try dsimp only
          have := ih seen collected count h
          omega

theorem trefleCategoryWalk_nodup (perCategoryLimit maxTotal : Nat) :
    ∀ (cats : List (List (Option String))) (seen collected : List String),
      collected.Nodup → (∀ u ∈ collected, u ∈ seen) →
      (trefleCategoryWalk perCategoryLimit maxTotal cats seen collected).Nodup := by
  intro cats
  induction cats with
  | nil =>
    intro seen collected h1 _
    simpa [trefleCategoryWalk] using h1
  | cons cat rest ih =>
    intro seen collected h1 h2
    have hc := collectCategory_inv perCategoryLimit maxTotal cat seen collected 0 h1 h2
    simp only [trefleCategoryWalk]
    split
    · exact hc.1
    · exact ih _ _ hc.1 hc.2

theorem trefleCategoryWalk_length (perCategoryLimit maxTotal : Nat)
    (hp : 1 ≤ perCategoryLimit) :
    ∀ (cats : List (List (Option String))) (seen collected : List String),
      (trefleCategoryWalk perCategoryLimit maxTotal cats seen collected).length ≤
        collected.length + cats.length * perCategoryLimit := by
  intro cats
  induction cats with
  | nil =>
    intro seen collected
    simp [trefleCategoryWalk]
  | cons cat rest ih =>
    intro seen collected
    have hc := collectCategory_length perCategoryLimit maxTotal cat seen collected 0
      (by omega)
    simp only [Nat.sub_zero] at hc
    simp only [trefleCategoryWalk]
    split
    · calc (collectCategory perCategoryLimit maxTotal cat seen collected 0).2.length
          ≤ collected.length + perCategoryLimit := hc
        _ ≤ collected.length + (cat :: rest).length * perCategoryLimit := by
            simp only [List.length_cons, Nat.succ_mul]
            omega
    · calc (trefleCategoryWalk perCategoryLimit maxTotal rest
            (collectCategory perCategoryLimit maxTotal cat seen collected 0).1
            (collectCategory perCategoryLimit maxTotal cat seen collected 0).2).length
          ≤ (collectCategory perCategoryLimit maxTotal cat seen collected 0).2.length
              + rest.length * perCategoryLimit := ih _ _
        _ ≤ (collected.length + perCategoryLimit) + rest.length * perCategoryLimit :=
            Nat.add_le_add_right hc _
        _ = collected.length + (cat :: rest).length * perCategoryLimit := by
            simp only [List.length_cons, Nat.succ_mul]
            omega

theorem trefleCollect_nodup (images : TrefleImages) (perCategoryLimit : Nat) :
    (trefleCollect images perCategoryLimit).Nodup :=
  trefleCategoryWalk_nodup _ _ _ [] [] (by simp) (by simp)

theorem trefleCollect_length (images : TrefleImages) (perCategoryLimit : Nat)
    (hp : 1 ≤ perCategoryLimit) :
    (trefleCollect images perCategoryLimit).length ≤ perCategoryLimit * 3 := by
  have := trefleCategoryWalk_length perCategoryLimit (perCategoryLimit * 3) hp
    [images.leaf, images.habit, images.flower] [] []
  simpa [trefleCollect, Nat.mul_comm] using this

theorem getTreflePlantImagesTry_shape (env : TrefleEnv) (perCategoryLimit : Nat)
    (r : List String) (hr : getTreflePlantImagesTry env perCategoryLimit = Except.ok r) :
    r = [] ∨ ∃ images, r = trefleCollect images perCategoryLimit := by
  unfold getTreflePlantImagesTry at hr
  split at hr
  · cases hr
  · split at hr
    · injection hr with h2
      exact Or.inl h2.symm
    · split at hr
      · injection hr with h2
        exact Or.inl h2.symm
      · injection hr with h2
        exact Or.inl h2.symm
      · split at hr
        · injection hr with h2
          exact Or.inl h2.symm
        · split at hr
          · cases hr
          · split at hr
            · injection hr with h2
              exact Or.inl h2.symm
            · split at hr
              · injection hr with h2
                exact Or.inl h2.symm
              · next images _ =>
                injection hr with h2
                exact Or.inr ⟨images, h2.symm⟩

theorem getTreflePlantImages_nodup (env : TrefleEnv) (perCategoryLimit : Nat) :
    (getTreflePlantImages env perCategoryLimit).Nodup := by
  unfold getTreflePlantImages
  split
  · simp
  · split
    · simp
    · split
      · simp
      · next r hr =>
        rcases getTreflePlantImagesTry_shape env perCategoryLimit r hr with h | ⟨images, h⟩
        · simp [h]
        · exact h ▸ trefleCollect_nodup images perCategoryLimit

theorem getTreflePlantImages_length (env : TrefleEnv) (perCategoryLimit : Nat)
    (hp : 1 ≤ perCategoryLimit) :
    (getTreflePlantImages env perCategoryLimit).length ≤ perCategoryLimit * 3 := by
  unfold getTreflePlantImages
  split
  · simp
  · split
    · simp
    · split
      · simp
      · next r hr =>
        rcases getTreflePlantImagesTry_shape env perCategoryLimit r hr with h | ⟨images, h⟩
        · simp [h]
        · exact h ▸ trefleCollect_length images perCategoryLimit hp

/-- C4: for every image-aggregation result — the primary (Trefle) provider's
category walk as well as the fallback (Wikipedia) chain — no URL appears twice
in the returned sequence, whatever the providers answered. -/
theorem C4_no_duplicate_urls (tenv : TrefleEnv) (perCategoryLimit : Nat)
    (wenv : WikiEnv) (limit : Nat) :
    (getTreflePlantImages tenv perCategoryLimit).Nodup ∧
    (getWikipediaPlantImages wenv limit).Nodup :=
  ⟨getTreflePlantImages_nodup tenv perCategoryLimit,
   getWikipediaPlantImages_nodup wenv limit⟩

/-- C5: the primary (Trefle) aggregation never returns more than
`perCategoryLimit × 3` URLs (for any positive per-category limit, hence 2 × 3
as invoked), and the fallback (Wikipedia) aggregation never returns more than
its configured `limit` (5 as invoked). -/
theorem C5_length_caps (tenv : TrefleEnv) (perCategoryLimit : Nat)
    (wenv : WikiEnv) (limit : Nat) (hp : 1 ≤ perCategoryLimit) :
    (getTreflePlantImages tenv perCategoryLimit).length ≤ perCategoryLimit * 3 ∧
    (getWikipediaPlantImages wenv limit).length ≤ limit :=
  ⟨getTreflePlantImages_length tenv perCategoryLimit hp,
   getWikipediaPlantImages_length wenv limit⟩

/-- Witness for C5 at the invoked arguments (`perCategoryLimit = 2`,
`limit = 5`) on concrete provider environments. -/
theorem C5_length_caps_witness :
    (getTreflePlantImages trefleFullEnv 2).length ≤ 2 * 3 ∧
    (getWikipediaPlantImages wikiFullEnv 5).length ≤ 5 :=
  C5_length_caps trefleFullEnv 2 wikiFullEnv 5 (by decide)

/-- C7: provider unavailability — missing credentials, a non-2xx response, or
a thrown step — is absorbed inside the provider function: each aggregation
function then returns the empty sequence instead of propagating the failure,
and a failed (empty) primary pass never aborts the overall aggregation, which
degrades to the fallback chain's result. -/
theorem C7_provider_failures_absorbed (tenv : TrefleEnv) (wenv : WikiEnv)
    (perCategoryLimit limit : Nat) :
    (∀ e, getTreflePlantImagesTry tenv perCategoryLimit = Except.error e →
      getTreflePlantImages tenv perCategoryLimit = [])
    ∧ (∀ e, getWikipediaPlantImagesTry wenv limit = Except.error e →
      getWikipediaPlantImages wenv limit = [])
    ∧ (tenv.token = none → getTreflePlantImages tenv perCategoryLimit = [])
    ∧ (∀ data, tenv.search = Except.ok (false, data) →
      getTreflePlantImages tenv perCategoryLimit = [])
    ∧ (getTreflePlantImages tenv 2 = [] →
      (aggregatePlantImages tenv wenv).1 = getWikipediaPlantImages wenv 5) := by
  refine ⟨?_, ?_, ?_, ?_, ?_⟩
  · intro e he
    unfold getTreflePlantImages
    rw [he]
    split
    · rfl
    · split
      · rfl
      · rfl
  · intro e he
    unfold getWikipediaPlantImages
    rw [he]
  · intro ht
    unfold getTreflePlantImages
    rw [ht]
  · intro data hs
    have htry : getTreflePlantImagesTry tenv perCategoryLimit = Except.ok [] := by
      unfold getTreflePlantImagesTry
      rw [hs]
      simp
    unfold getTreflePlantImages
    rw [htry]
    split
    · rfl
    · split
      · rfl
      · rfl
  · intro h0
    unfold aggregatePlantImages
    rw [h0]
    simp

/-- Witness for C7 on concrete failing environments: a thrown Trefle search,
a thrown Wikipedia fetch, a missing Trefle token, a non-2xx Trefle search,
and the degradation of the aggregation to the Wikipedia result. -/
theorem C7_provider_failures_absorbed_witness :
    getTreflePlantImages trefleThrowEnv 2 = []
    ∧ getWikipediaPlantImages wikiThrowEnv 5 = []
    ∧ getTreflePlantImages trefleOffEnv 2 = []
    ∧ getTreflePlantImages trefleHttpErrEnv 2 = []
    ∧ (aggregatePlantImages trefleOffEnv wikiEmptyEnv).1 =
        getWikipediaPlantImages wikiEmptyEnv 5 :=
  ⟨(C7_provider_failures_absorbed trefleThrowEnv wikiThrowEnv 2 5).1 () rfl,
   (C7_provider_failures_absorbed trefleThrowEnv wikiThrowEnv 2 5).2.1 () rfl,
   (C7_provider_failures_absorbed trefleOffEnv wikiEmptyEnv 2 5).2.2.1 rfl,
   (C7_provider_failures_absorbed trefleHttpErrEnv wikiEmptyEnv 2 5).2.2.2.1 none rfl,
   (C7_provider_failures_absorbed trefleOffEnv wikiEmptyEnv 2 5).2.2.2.2
     ((C7_provider_failures_absorbed trefleOffEnv wikiEmptyEnv 2 5).2.2.1 rfl)⟩

/-! ### Lemmas: the serve handler -/

theorem serveHandlerTry_cases (env : ServeEnv) (r : HandlerResult)
    (hr : serveHandlerTry env = Except.ok r) :
    r.persist = PersistAction.noPersist ∨
    ∃ sn fr en, env.scientificName = Except.ok (some sn) ∧
      callGeminiInLanguage env.jsonParse env.frEnv = Except.ok fr ∧
      callGeminiInLanguage env.jsonParse env.enEnv = Except.ok en ∧
      ¬(fr = none ∧ en = none) ∧
      r = HandlerResult.mk 200 (if isEnglishReq env then en else fr)
            (aggregatePlantImages env.trefleEnv env.wikiEnv).1
            (if env.existingRecord then
              PersistAction.update (InsertData.mk sn fr en
                (if (aggregatePlantImages env.trefleEnv env.wikiEnv).1.length > 0
                 then some (aggregatePlantImages env.trefleEnv env.wikiEnv).1 else none))
             else
              PersistAction.insert (InsertData.mk sn fr en
                (if (aggregatePlantImages env.trefleEnv env.wikiEnv).1.length > 0
                 then some (aggregatePlantImages env.trefleEnv env.wikiEnv).1 else none)))
            (if (getTreflePlantImages env.trefleEnv 2).length > 0 then
              [FetchOp.genFr, FetchOp.genEn, FetchOp.fetchTrefleImages]
             else
              [FetchOp.genFr, FetchOp.genEn, FetchOp.fetchTrefleImages,
               FetchOp.fetchWikipediaImages]) := by
  unfold serveHandlerTry at hr
  split at hr
  · cases hr
  · injection hr with h
    subst h
    exact Or.inl rfl
  · next sn hsn =>
    split at hr
    · injection hr with h
      subst h
      exact Or.inl rfl
    · split at hr
      · injection hr with h
        subst h
        exact Or.inl rfl
      · split at hr
        · injection hr with h
          subst h
          exact Or.inl rfl
        · next k hkey =>
          split at hr
          · injection hr with h
            subst h
            exact Or.inl rfl
          · split at hr
            · cases hr
            · cases hr
            · next frenchDetails englishDetails hfr hen =>
              try dsimp only at hr
              split at hr
              · injection hr with h
                subst h
                exact Or.inl rfl
              · next fd ed hne =>
                injection hr with h
                subst h
                exact Or.inr ⟨sn, _, _, hsn, hfr, hen, fun hc => hne hc.1 hc.2, rfl⟩

theorem serveHandler_ok_of_persist (env : ServeEnv)
    (h : (serveHandler env).persist ≠ PersistAction.noPersist) :
    serveHandlerTry env = Except.ok (serveHandler env) := by
  unfold serveHandler at *
  cases htry : serveHandlerTry env with
  | error e => rw [htry] at h; simp at h
  | ok r => rfl

theorem serveHandlerTry_both_none (env : ServeEnv) (sn k : String)
    (h1 : env.scientificName = Except.ok (some sn)) (h2 : sn ≠ "")
    (h3 : cachedForLocale env = none)
    (h4 : env.geminiKey = some k) (h5 : k ≠ "")
    (hfr : callGeminiInLanguage env.jsonParse env.frEnv = Except.ok none)
    (hen : callGeminiInLanguage env.jsonParse env.enEnv = Except.ok none) :
    ∃ ops, serveHandlerTry env =
      Except.ok (HandlerResult.mk 503 none [] PersistAction.noPersist ops) := by
  unfold serveHandlerTry
  simp only [h1, h2, h3, h4, h5, hfr, hen, ite_true, ite_false]
  exact ⟨_, rfl⟩

theorem serveHandlerTry_miss_ops (env : ServeEnv) (sn k : String)
    (fr0 en0 : Option DetailSheet)
    (h1 : env.scientificName = Except.ok (some sn)) (h2 : sn ≠ "")
    (h3 : cachedForLocale env = none)
    (h4 : env.geminiKey = some k) (h5 : k ≠ "")
    (hfr : callGeminiInLanguage env.jsonParse env.frEnv = Except.ok fr0)
    (hen : callGeminiInLanguage env.jsonParse env.enEnv = Except.ok en0) :
    ∃ r, serveHandlerTry env = Except.ok r ∧
      r.ops = (if (getTreflePlantImages env.trefleEnv 2).length > 0 then
        [FetchOp.genFr, FetchOp.genEn, FetchOp.fetchTrefleImages]
       else
        [FetchOp.genFr, FetchOp.genEn, FetchOp.fetchTrefleImages,
         FetchOp.fetchWikipediaImages]) := by
  cases fr0 <;> cases en0 <;>
    (unfold serveHandlerTry
     simp only [h1, h2, h3, h4, h5, hfr, hen, ite_true, ite_false]
     exact ⟨_, rfl, rfl⟩)

theorem serveHandler_no_key (env : ServeEnv) (sn : String)
    (h1 : env.scientificName = Except.ok (some sn)) (h2 : sn ≠ "")
    (h3 : cachedForLocale env = none) (h4 : env.geminiKey = none) :
    serveHandler env = HandlerResult.mk 500 none [] PersistAction.noPersist [] := by
  unfold serveHandler serveHandlerTry
  simp only [h1, h2, h3, h4, ite_true, ite_false]

theorem serveHandler_persist_fields (env : ServeEnv) (d : InsertData)
    (h : (serveHandler env).persist = PersistAction.insert d ∨
         (serveHandler env).persist = PersistAction.update d) :
    ∃ sn, env.scientificName = Except.ok (some sn) ∧
      callGeminiInLanguage env.jsonParse env.frEnv = Except.ok d.result_fr ∧
      callGeminiInLanguage env.jsonParse env.enEnv = Except.ok d.result_en ∧
      ¬(d.result_fr = none ∧ d.result_en = none) ∧
      d.images = (if (aggregatePlantImages env.trefleEnv env.wikiEnv).1.length > 0
                  then some (aggregatePlantImages env.trefleEnv env.wikiEnv).1
                  else none) ∧
      (serveHandler env).status = 200 ∧
      (serveHandler env).details =
        (if isEnglishReq env then d.result_en else d.result_fr) ∧
      (serveHandler env).images = (aggregatePlantImages env.trefleEnv env.wikiEnv).1 := by
  have hne : (serveHandler env).persist ≠ PersistAction.noPersist := by
    rcases h with h | h <;> simp [h]
  have hok := serveHandler_ok_of_persist env hne
  rcases serveHandlerTry_cases env (serveHandler env) hok with
    hnp | ⟨sn, fr, en, hsn, hfr, hen, hnn, hres⟩
  · exact absurd hnp hne
  · rw [hres] at h
    have hd : InsertData.mk sn fr en
        (if (aggregatePlantImages env.trefleEnv env.wikiEnv).1.length > 0
         then some (aggregatePlantImages env.trefleEnv env.wikiEnv).1
         else none) = d := by
      rcases h with h | h
      · try dsimp only at h
        split at h
        · exact absurd h (by simp)
        · injection h with h'
          all_goals exact h'
      · try dsimp only at h
        split at h
        · injection h with h'
          all_goals exact h'
        · exact absurd h (by simp)
    subst hd
    refine ⟨sn, hsn, hfr, hen, hnn, rfl, ?_, ?_, ?_⟩ <;> rw [hres]

/-! ### Claims about the orchestrator -/

/-- C1: every persistence payload (insert or update) carries at least one
non-null locale sheet; and on a miss where both locale generations return
null, the handler responds 503 and aborts the persistence step. -/
theorem C1_at_least_one_locale (env : ServeEnv) :
    (∀ d, ((serveHandler env).persist = PersistAction.insert d ∨
           (serveHandler env).persist = PersistAction.update d) →
      (d.result_fr ≠ none ∨ d.result_en ≠ none))
    ∧ (∀ sn k, env.scientificName = Except.ok (some sn) → sn ≠ "" →
        cachedForLocale env = none → env.geminiKey = some k → k ≠ "" →
        callGeminiInLanguage env.jsonParse env.frEnv = Except.ok none →
        callGeminiInLanguage env.jsonParse env.enEnv = Except.ok none →
        (serveHandler env).status = 503 ∧
        (serveHandler env).persist = PersistAction.noPersist) := by
  constructor
  · intro d hd
    obtain ⟨sn, hsn, hfr, hen, hnn, himg, hst, hdet, him⟩ :=
      serveHandler_persist_fields env d hd
    by_cases hfr0 : d.result_fr = none
    · exact Or.inr (fun hen0 => hnn ⟨hfr0, hen0⟩)
    · exact Or.inl hfr0
  · intro sn k h1 h2 h3 h4 h5 hfr hen
    obtain ⟨ops, hTry⟩ := serveHandlerTry_both_none env sn k h1 h2 h3 h4 h5 hfr hen
    unfold serveHandler
    rw [hTry]
    exact ⟨rfl, rfl⟩

/-- Witness for C1: a round where both generations produce a sheet yields an
update payload with non-null locales, and a round where both fail yields 503
with no persistence. -/
theorem C1_at_least_one_locale_witness :
    ((InsertData.mk "Rosa" (some allNullSheet) (some allNullSheet) none).result_fr ≠ none ∨
     (InsertData.mk "Rosa" (some allNullSheet) (some allNullSheet) none).result_en ≠ none)
    ∧ ((serveHandler exampleBothFailEnv).status = 503 ∧
       (serveHandler exampleBothFailEnv).persist = PersistAction.noPersist) :=
  ⟨(C1_at_least_one_locale exampleMissEnv).1
      (InsertData.mk "Rosa" (some allNullSheet) (some allNullSheet) none) (Or.inr rfl),
   (C1_at_least_one_locale exampleBothFailEnv).2 "Rosa" "k" rfl (by decide) rfl rfl
      (by decide) rfl rfl⟩

/-- C2 counterexample: a request for locale `en` on a species whose row holds
a cached `fr` sheet re-runs the `fr` generation and issues an update whose
`result_fr` is the freshly generated sheet — applying it replaces the cached
`fr` sheet with a different one, so the update path does not leave the stored
`fr` sheet unchanged. -/
theorem C2_counterexample :
    cachedForLocale exampleMissEnv = none
    ∧ exampleMissEnv.cached.bind (fun r => r.result_fr) = some oldFrSheet
    ∧ (serveHandler exampleMissEnv).persist =
        PersistAction.update (InsertData.mk "Rosa" (some allNullSheet) (some allNullSheet) none)
    ∧ applyPersist exampleMissEnv.cached (serveHandler exampleMissEnv).persist false
        = some ⟨some allNullSheet, some allNullSheet, some ["img1"]⟩
    ∧ allNullSheet ≠ oldFrSheet := by
  refine ⟨rfl, rfl, rfl, rfl, ?_⟩
  intro h
  have := congrArg List.length h
  simp [allNullSheet, oldFrSheet, normalizeDetails, expectedFields] at this

/-- C2 as amended: the update payload carries exactly this round's results, so
a stored locale sheet survives only when this round's generation for that
locale returned null (otherwise it is overwritten by the fresh sheet), the
stored images survive exactly when this round's aggregation came back empty,
and the update never discards data: no stored column goes from present to
absent. -/
theorem C2_update_augments (env : ServeEnv) (d : InsertData) (rec : CachedDetails)
    (h : (serveHandler env).persist = PersistAction.update d) :
    (callGeminiInLanguage env.jsonParse env.frEnv = Except.ok none →
      (applyUpdate rec d).result_fr = rec.result_fr)
    ∧ (callGeminiInLanguage env.jsonParse env.enEnv = Except.ok none →
      (applyUpdate rec d).result_en = rec.result_en)
    ∧ ((aggregatePlantImages env.trefleEnv env.wikiEnv).1 = [] →
      (applyUpdate rec d).images = rec.images)
    ∧ ((applyUpdate rec d).result_fr = none → rec.result_fr = none)
    ∧ ((applyUpdate rec d).result_en = none → rec.result_en = none)
    ∧ ((applyUpdate rec d).images = none → rec.images = none) := by
  obtain ⟨sn, hsn, hfr, hen, hnn, himg, hst, hdet, him⟩ :=
    serveHandler_persist_fields env d (Or.inr h)
  refine ⟨?_, ?_, ?_, ?_, ?_, ?_⟩
  · intro h0
    rw [h0] at hfr
    injection hfr with h'
    simp [applyUpdate, ← h']
  · intro h0
    rw [h0] at hen
    injection hen with h'
    simp [applyUpdate, ← h']
  · intro h0
    rw [h0] at himg
    simp only [List.length_nil, gt_iff_lt, Nat.lt_irrefl, ite_false] at himg
    simp [applyUpdate, himg]
  · intro h0
    cases hdf : d.result_fr with
    | none => simpa [applyUpdate, hdf] using h0
    | some s => simp [applyUpdate, hdf] at h0
  · intro h0
    cases hde : d.result_en with
    | none => simpa [applyUpdate, hde] using h0
    | some s => simp [applyUpdate, hde] at h0
  · intro h0
    cases hdi : d.images with
    | none => simpa [applyUpdate, hdi] using h0
    | some s => simp [applyUpdate, hdi] at h0

/-- Witness for C2 as amended: with the French generation failing and the
aggregation empty, applying the issued update to the cached row preserves the
stored `fr` sheet and images. -/
theorem C2_update_augments_witness :
    (applyUpdate ⟨some oldFrSheet, none, some ["img1"]⟩
        (InsertData.mk "Rosa" none (some allNullSheet) none)).result_fr =
      (⟨some oldFrSheet, none, some ["img1"]⟩ : CachedDetails).result_fr
    ∧ (applyUpdate ⟨some oldFrSheet, none, some ["img1"]⟩
        (InsertData.mk "Rosa" none (some allNullSheet) none)).images =
      (⟨some oldFrSheet, none, some ["img1"]⟩ : CachedDetails).images :=
  ⟨(C2_update_augments exampleFrFailEnv
      (InsertData.mk "Rosa" none (some allNullSheet) none)
      ⟨some oldFrSheet, none, some ["img1"]⟩ rfl).1 rfl,
   (C2_update_augments exampleFrFailEnv
      (InsertData.mk "Rosa" none (some allNullSheet) none)
      ⟨some oldFrSheet, none, some ["img1"]⟩ rfl).2.2.1 rfl⟩

/-- C3 counterexample: with the `fr` sheet and non-empty images already
cached and a request for locale `en`, the handler still executes the `fr`
generation and both image fetches — not only the `en` generation. -/
theorem C3_counterexample :
    (exampleMissEnv.cached.bind (fun r => r.result_fr)) = some oldFrSheet
    ∧ (exampleMissEnv.cached.bind (fun r => r.images)) = some ["img1"]
    ∧ cachedForLocale exampleMissEnv = none
    ∧ (serveHandler exampleMissEnv).ops =
        [FetchOp.genFr, FetchOp.genEn, FetchOp.fetchTrefleImages,
         FetchOp.fetchWikipediaImages] :=
  ⟨rfl, rfl, rfl, rfl⟩

/-- C3 as amended: on every cache miss for the requested locale — whatever is
already cached for the other locale or for images — the handler runs the `fr`
generation, the `en` generation and the Trefle fetch, and additionally the
Wikipedia fetch when Trefle returns nothing. -/
theorem C3_miss_runs_everything (env : ServeEnv) (sn k : String)
    (fr0 en0 : Option DetailSheet)
    (h1 : env.scientificName = Except.ok (some sn)) (h2 : sn ≠ "")
    (h3 : cachedForLocale env = none)
    (h4 : env.geminiKey = some k) (h5 : k ≠ "")
    (hfr : callGeminiInLanguage env.jsonParse env.frEnv = Except.ok fr0)
    (hen : callGeminiInLanguage env.jsonParse env.enEnv = Except.ok en0) :
    FetchOp.genFr ∈ (serveHandler env).ops
    ∧ FetchOp.genEn ∈ (serveHandler env).ops
    ∧ FetchOp.fetchTrefleImages ∈ (serveHandler env).ops
    ∧ (getTreflePlantImages env.trefleEnv 2 = [] →
        FetchOp.fetchWikipediaImages ∈ (serveHandler env).ops) := by
  obtain ⟨r, hTry, hops⟩ :=
    serveHandlerTry_miss_ops env sn k fr0 en0 h1 h2 h3 h4 h5 hfr hen
  have h' : (serveHandler env).ops = r.ops := by
    unfold serveHandler
    rw [hTry]
  rw [h', hops]
  refine ⟨?_, ?_, ?_, ?_⟩
  · split <;> simp
  · split <;> simp
  · split <;> simp
  · intro h0
    rw [h0]
    simp

/-- Witness for C3 as amended, on the concrete miss environment. -/
theorem C3_miss_runs_everything_witness :
    FetchOp.genFr ∈ (serveHandler exampleMissEnv).ops
    ∧ FetchOp.genEn ∈ (serveHandler exampleMissEnv).ops
    ∧ FetchOp.fetchTrefleImages ∈ (serveHandler exampleMissEnv).ops
    ∧ (getTreflePlantImages exampleMissEnv.trefleEnv 2 = [] →
        FetchOp.fetchWikipediaImages ∈ (serveHandler exampleMissEnv).ops) :=
  C3_miss_runs_everything exampleMissEnv "Rosa" "k"
    (some allNullSheet) (some allNullSheet) rfl (by decide) rfl rfl (by decide) rfl rfl

/-- C10: the handler's observable response is independent of whether the
insert/update returned an error (the error is only logged); whenever a
persistence call is issued the response is 200 and carries the requested
locale's freshly generated sheet and the aggregated images; and a failed
store call leaves the stored row unchanged, so the next request misses the
cache again. -/
theorem C10_persist_error_invisible (env : ServeEnv) (b1 b2 : Bool) :
    serveHandler { env with persistError := b1 } =
      serveHandler { env with persistError := b2 }
    ∧ (∀ d, ((serveHandler env).persist = PersistAction.insert d ∨
             (serveHandler env).persist = PersistAction.update d) →
        (serveHandler env).status = 200 ∧
        (serveHandler env).details =
          (if isEnglishReq env then d.result_en else d.result_fr) ∧
        (serveHandler env).images = (aggregatePlantImages env.trefleEnv env.wikiEnv).1)
    ∧ (∀ store a, applyPersist store a true = store) := by
  refine ⟨rfl, ?_, fun store a => rfl⟩
  intro d hd
  obtain ⟨sn, hsn, hfr, hen, hnn, himg, hst, hdet, him⟩ :=
    serveHandler_persist_fields env d hd
  exact ⟨hst, hdet, him⟩

/-- Witness for C10 on the concrete miss environment, which issues an
update. -/
theorem C10_persist_error_invisible_witness :
    (serveHandler exampleMissEnv).status = 200
    ∧ (serveHandler exampleMissEnv).details =
        (if isEnglishReq exampleMissEnv then
          (InsertData.mk "Rosa" (some allNullSheet) (some allNullSheet) none).result_en
         else (InsertData.mk "Rosa" (some allNullSheet) (some allNullSheet) none).result_fr)
    ∧ (serveHandler exampleMissEnv).images =
        (aggregatePlantImages exampleMissEnv.trefleEnv exampleMissEnv.wikiEnv).1 :=
  (C10_persist_error_invisible exampleMissEnv true false).2.1
    (InsertData.mk "Rosa" (some allNullSheet) (some allNullSheet) none) (Or.inr rfl)

/-! ### Claims about the detail generator and locale resolution -/

/-- C6 counterexample: non-JSON model output ("hello", a 200 response with
prose and no brace-delimited JSON) does not yield null — it yields a sheet
with every field null; and a thrown fetch propagates past the generator's
boundary instead of yielding null. -/
theorem C6_counterexample :
    callGeminiInLanguage jsonParseNone geminiHelloEnv = Except.ok (some allNullSheet)
    ∧ Except.ok (some allNullSheet) ≠ (Except.ok none : Except Unit (Option DetailSheet))
    ∧ callGeminiInLanguage jsonParseNone geminiThrowEnv = Except.error () := by
  refine ⟨rfl, ?_, rfl⟩
  intro h
  injection h with h'
  cases h'

/-- C6 as amended: a non-2xx response or an absent/empty text payload yields
null for that locale without throwing; a thrown fetch propagates out of the
generator (to the outer 500 handler); non-JSON model output yields a non-null
all-null sheet; and a missing Gemini credential aborts the whole request with
a 500 before any generation runs. -/
theorem C6_generator_failure_modes (jsonParse : String → Option JValue)
    (genv : GeminiEnv) (h : GeminiHttp) (env : ServeEnv) (sn : String) :
    (genv.response = Except.ok h → h.ok = false →
      callGeminiInLanguage jsonParse genv = Except.ok none)
    ∧ (genv.response = Except.ok h → h.text = none →
      callGeminiInLanguage jsonParse genv = Except.ok none)
    ∧ (genv.response = Except.ok h → h.text = some "" →
      callGeminiInLanguage jsonParse genv = Except.ok none)
    ∧ (∀ e, genv.response = Except.error e →
      callGeminiInLanguage jsonParse genv = Except.error e)
    ∧ (∀ t, genv.response = Except.ok h → h.ok = true → h.text = some t → t ≠ "" →
      braceMatch t = none →
      callGeminiInLanguage jsonParse genv =
        Except.ok (some (normalizeDetails jsonParse [])))
    ∧ (env.scientificName = Except.ok (some sn) → sn ≠ "" →
      cachedForLocale env = none → env.geminiKey = none →
      (serveHandler env).status = 500 ∧
      (serveHandler env).persist = PersistAction.noPersist) := by
  obtain ⟨ok, text⟩ := h
  refine ⟨?_, ?_, ?_, ?_, ?_, ?_⟩
  · intro hre hok
    unfold callGeminiInLanguage
    rw [hre]
    simp only at hok
    rw [hok]
    rfl
  · intro hre ht
    simp only at ht
    subst ht
    unfold callGeminiInLanguage
    rw [hre]
    cases ok <;> rfl
  · intro hre ht
    simp only at ht
    subst ht
    unfold callGeminiInLanguage
    rw [hre]
    cases ok <;> rfl
  · intro e hre
    unfold callGeminiInLanguage
    rw [hre]
  · intro t hre hok ht hne hbm
    simp only at hok ht
    subst hok
    subst ht
    unfold callGeminiInLanguage
    rw [hre]
    simp only [hbm, hne, ite_false, Bool.true_eq_false, if_false]
  · intro h1 h2 h3 h4
    rw [serveHandler_no_key env sn h1 h2 h3 h4]
    exact ⟨rfl, rfl⟩

/-- Witness for C6 as amended, at concrete generator and request
environments. -/
theorem C6_generator_failure_modes_witness :
    callGeminiInLanguage jsonParseNone geminiDownEnv = Except.ok none
    ∧ callGeminiInLanguage jsonParseNone geminiThrowEnv = Except.error ()
    ∧ callGeminiInLanguage jsonParseNone geminiHelloEnv =
        Except.ok (some (normalizeDetails jsonParseNone []))
    ∧ ((serveHandler exampleNoKeyEnv).status = 500 ∧
       (serveHandler exampleNoKeyEnv).persist = PersistAction.noPersist) :=
  ⟨(C6_generator_failure_modes jsonParseNone geminiDownEnv ⟨false, none⟩
      exampleNoKeyEnv "Rosa").1 rfl rfl,
   (C6_generator_failure_modes jsonParseNone geminiThrowEnv ⟨false, none⟩
      exampleNoKeyEnv "Rosa").2.2.2.1 () rfl,
   (C6_generator_failure_modes jsonParseNone geminiHelloEnv ⟨true, some "hello"⟩
      exampleNoKeyEnv "Rosa").2.2.2.2.1 "hello" rfl rfl rfl (by decide) rfl,
   (C6_generator_failure_modes jsonParseNone geminiDownEnv ⟨false, none⟩
      exampleNoKeyEnv "Rosa").2.2.2.2.2 rfl (by decide) rfl rfl⟩

theorem map_fst_map_pair (f : String → JValue) :
    ∀ keys : List String, (keys.map (fun k => (k, f k))).map Prod.fst = keys := by
  intro keys
  induction keys with
  | nil => rfl
  | cons a rest ih => simp [ih]

theorem jsLookup_map_self (f : String → JValue) :
    ∀ (keys : List String) (key : String), key ∈ keys →
      jsLookup (keys.map (fun k => (k, f k))) key = some (f key) := by
  intro keys
  induction keys with
  | nil =>
    intro key h
    cases h
  | cons a rest ih =>
    intro key h
    by_cases hak : a = key
    · subst hak
      simp [jsLookup]
    · have hmem : key ∈ rest := by
        rcases List.mem_cons.mp h with h' | h'
        · exact absurd h'.symm hak
        · exact h'
      unfold jsLookup
      rw [List.map_cons, List.find?_cons_of_neg]
      · exact ih key hmem
      · simp [hak]

/-- C8 counterexample: a falsy scalar `advice` value (the empty string) is not
coerced into a one-element array — the output `advice` field is present
(non-null) and is not a sequence. -/
theorem C8_counterexample :
    jsLookup (normalizeDetails jsonParseNone [("advice", JValue.str "")]) "advice"
      = some (JValue.str "")
    ∧ (JValue.str "").isArr = false
    ∧ JValue.str "" ≠ JValue.null := by
  refine ⟨rfl, rfl, ?_⟩
  intro h
  cases h

/-- C8 as amended: every normalized sheet has exactly the fixed expected field
set in order; a missing/undefined field becomes an explicit null; a non-advice
string field that syntactically looks like an array literal is re-parsed
best-effort (the parse result if it succeeds, the raw string if it throws),
never failing the sheet; and a truthy `advice` value is always a sequence in
the output — a falsy scalar advice value is kept as-is. -/
theorem C8_normalization (p : String → Option JValue)
    (parsed : List (String × JValue))
    (hp : ∀ s v, looksLikeArrayLit s = true → p s = some v → v.isArr = true) :
    ((normalizeDetails p parsed).map Prod.fst = expectedFields)
    ∧ (∀ key, key ∈ expectedFields → jsLookup parsed key = none →
        jsLookup (normalizeDetails p parsed) key = some JValue.null)
    ∧ (∀ key s, key ∈ expectedFields → key ≠ "advice" →
        jsLookup parsed key = some (JValue.str s) → looksLikeArrayLit s = true →
        jsLookup (normalizeDetails p parsed) key =
          some (match p s with
                | some JValue.null => JValue.null
                | some w => w
                | none => JValue.str s))
    ∧ (∀ v, jsLookup parsed "advice" = some v → v.jsTruthy = true →
        ∃ w, jsLookup (normalizeDetails p parsed) "advice" = some w ∧
          w.isArr = true) := by
  refine ⟨?_, ?_, ?_, ?_⟩
  · unfold normalizeDetails
    exact map_fst_map_pair (normalizeField p parsed) expectedFields
  · intro key hk h0
    unfold normalizeDetails
    rw [jsLookup_map_self (normalizeField p parsed) expectedFields key hk]
    have hnf : normalizeField p parsed key = JValue.null := by
      unfold normalizeField
      rw [h0]
      by_cases hadv : key = "advice" <;> simp [hadv]
    rw [hnf]
  · intro key s hk hadv h0 hlook
    unfold normalizeDetails
    rw [jsLookup_map_self (normalizeField p parsed) expectedFields key hk]
    have hnf : normalizeField p parsed key =
        (match p s with
         | some JValue.null => JValue.null
         | some w => w
         | none => JValue.str s) := by
      unfold normalizeField
      rw [h0]
      simp only [hlook, ite_true, if_neg hadv]
      cases hps : p s with
      | none => rfl
      | some w => cases w <;> rfl
    rw [hnf]
  · intro v h0 htr
    have hkadv : "advice" ∈ expectedFields := by simp [expectedFields]
    refine ⟨normalizeField p parsed "advice", ?_, ?_⟩
    · unfold normalizeDetails
      exact jsLookup_map_self (normalizeField p parsed) expectedFields "advice" hkadv
    · cases v with
      | null => simp [JValue.jsTruthy] at htr
      | bool b =>
        simp [JValue.jsTruthy] at htr
        subst htr
        simp [normalizeField, h0, JValue.jsTruthy, JValue.isArr]
      | num n =>
        simp [JValue.jsTruthy] at htr
        simp [normalizeField, h0, JValue.jsTruthy, JValue.isArr, htr]
      | str s =>
        simp [JValue.jsTruthy] at htr
        by_cases hlook : looksLikeArrayLit s = true
        · cases hps : p s with
          | some w =>
            have hw := hp s w hlook hps
            cases w <;> simp [JValue.isArr] at hw ⊢ <;>
              simp [normalizeField, h0, hlook, hps, JValue.jsTruthy, JValue.isArr]
          | none =>
            simp [normalizeField, h0, hlook, hps, JValue.jsTruthy, JValue.isArr, htr]
        · simp only [Bool.not_eq_true] at hlook
          simp [normalizeField, h0, hlook, JValue.jsTruthy, JValue.isArr, htr]
      | arr xs =>
        simp [normalizeField, h0, JValue.isArr, JValue.jsTruthy]
      | obj fields =>
        simp [normalizeField, h0, JValue.isArr, JValue.jsTruthy]

/-- Witness for C8 as amended: the always-throwing parse oracle satisfies the
parse-shape hypothesis vacuously; a truthy scalar advice value is coerced. -/
theorem C8_normalization_witness :
    ((normalizeDetails jsonParseNone [("advice", JValue.str "tip")]).map Prod.fst
      = expectedFields)
    ∧ (∃ w, jsLookup (normalizeDetails jsonParseNone [("advice", JValue.str "tip")])
        "advice" = some w ∧ w.isArr = true) :=
  ⟨(C8_normalization jsonParseNone [("advice", JValue.str "tip")]
      (fun s v _ hv => by cases hv)).1,
   (C8_normalization jsonParseNone [("advice", JValue.str "tip")]
      (fun s v _ hv => by cases hv)).2.2.2 (JValue.str "tip") rfl rfl⟩

/-- C9 counterexample: for the language-preference header `"en;q=0.9"` (no
explicit override header), the claim's `;`/`,` tokenization yields `"en"` and
so predicts English, but the code splits on `,` and `-` only, resolves the
language to `"en;q=0.9"` and collapses it to the default `fr`. -/
theorem C9_counterexample :
    claimFirstToken "en;q=0.9" = "en"
    ∧ resolveLanguage none (some "en;q=0.9") = "en;q=0.9"
    ∧ effectiveLocale none (some "en;q=0.9") = Locale.fr
    ∧ ("en;q=0.9" : String) ≠ "en" := by
  refine ⟨rfl, rfl, rfl, by decide⟩

/-- C9 as amended: the effective locale is read from the explicit override
header when non-empty, otherwise from the first `,`-delimited entry of the
language-preference header truncated at its first `-`, otherwise it defaults
to `fr`; only the exact resolved value `"en"` selects English and every other
value (including weighted entries such as `"en;q=0.9"`) collapses to `fr`. -/
theorem C9_locale_resolution (xLanguage acceptLanguage : Option String) :
    effectiveLocale xLanguage acceptLanguage =
      effectiveLocaleAmendedSpec xLanguage acceptLanguage := by
  have hr : resolveLanguage xLanguage acceptLanguage =
      (if amendedHeaderLanguage xLanguage acceptLanguage = "" then "fr"
       else amendedHeaderLanguage xLanguage acceptLanguage) := rfl
  unfold effectiveLocale effectiveLocaleAmendedSpec
  rw [hr]
  by_cases h0 : amendedHeaderLanguage xLanguage acceptLanguage = ""
  · rw [if_pos h0, if_neg (by decide : ¬("fr" : String) = "en"), h0,
      if_neg (by decide : ¬("" : String) = "en")]
  · rw [if_neg h0]

end PlantDetails
